import Mathlib

/-!
Shallow embedding of the response-aggregation and scoring engine of
`src/lib/ai-utils.ts` (`analyzeCompetitors`, `calculateBrandScores`,
`analyzeCompetitorsByProvider`, `analyzePromptWithProvider` and helpers).

JavaScript numbers are modelled as exact rationals (`ℚ`); `Math.round x` is
`⌊x + 1/2⌋` for every finite `x`, which is Mathlib's `round`. Division of
rationals is total (`x / 0 = 0`), whereas JavaScript produces `NaN`/`Infinity`;
the only place this matters is `visibilityScore` of `analyzeCompetitors` with
an empty response list, which no theorem below touches.
-/

namespace FireGeo

/-- Sentiment values of the `z.enum(['positive', 'neutral', 'negative'])` schema. -/
inductive Sentiment where
  | positive
  | neutral
  | negative
deriving DecidableEq, Repr, Inhabited

/-- One entry of `rankings` (`CompanyRanking` in the source). -/
structure CompanyRanking where
  position : ℚ
  company : String
  reason : Option String := none
  sentiment : Option Sentiment := none
deriving DecidableEq, Repr

/-- `AIResponse` (the `AnalysisResult` of the spec) as produced by
`analyzePromptWithProvider` and consumed by the aggregator. `timestamp` and the
audit-only optional `detectionDetails` field are not modelled: no aggregation
or scoring code reads them. `rankings` is optional in the source
(`if (response.rankings)`), hence `Option`. -/
structure AIResponse where
  provider : String
  prompt : String
  response : String
  rankings : Option (List CompanyRanking) := none
  competitors : List String := []
  brandMentioned : Bool := false
  brandPosition : Option ℚ := none
  sentiment : Sentiment := .neutral
  confidence : ℚ := 0
deriving DecidableEq, Repr

/-- Aggregated per-company entry (`CompetitorRanking` in the source). -/
structure CompetitorRanking where
  name : String
  mentions : ℕ
  averagePosition : ℚ
  sentiment : Sentiment
  sentimentScore : ℚ
  shareOfVoice : ℚ
  visibilityScore : ℚ
  weeklyChange : Option ℚ := none
  isOwn : Bool
deriving DecidableEq, Repr, Inhabited

/-- `Math.round(x * 10) / 10`: round to one decimal place. -/
def round1 (x : ℚ) : ℚ := (round (x * 10) : ℤ) / 10

/-- Insertion-order-preserving de-duplication, as performed by
`new Set([...])` followed by iteration. -/
def dedupKeepFirst {α : Type} [DecidableEq α] (l : List α) : List α :=
  l.foldl (fun acc n => if n ∈ acc then acc else acc ++ [n]) []

/-- `new Set([company.name, ...knownCompetitors])`, iterated in insertion order. -/
def trackedCompanies (brand : String) (known : List String) : List String :=
  dedupKeepFirst (brand :: known)

/-- Stable insertion of `a` into a list already sorted descending by `key`:
`a` is placed before the first element whose key is `≤ key a`. -/
def insertByDesc {α : Type} (key : α → ℚ) (a : α) : List α → List α
  | [] => [a]
  | b :: bs => if key b ≤ key a then a :: b :: bs else b :: insertByDesc key a bs

/-- Stable sort, descending by `key`. `Array.prototype.sort` with comparator
`(a, b) => key(b) - key(a)` is a stable sort (ECMAScript 2019) for the total
preorder `key b ≤ key a`, and every stable sort for a total preorder produces
the same list, so stable insertion sort is a faithful model of it. -/
def sortByDesc {α : Type} (key : α → ℚ) : List α → List α
  | [] => []
  | a :: l => insertByDesc key a (sortByDesc key l)

/-- The numeric value of one sentiment sample (`sentimentValues` in the source). -/
def sentimentValue : Sentiment → ℚ
  | .positive => 100
  | .neutral => 50
  | .negative => 0

/-- `calculateSentimentScore`: mean of the per-sample values rounded to the
nearest integer; `50` for an empty sample list. -/
def calculateSentimentScore (sentiments : List Sentiment) : ℚ :=
  if sentiments.length = 0 then 50
  else ((round ((sentiments.map sentimentValue).sum / sentiments.length) : ℤ) : ℚ)

/-- `determineSentiment`: plurality vote over the samples, ties `neutral`. -/
def determineSentiment (sentiments : List Sentiment) : Sentiment :=
  if sentiments.length = 0 then .neutral
  else
    let pos := sentiments.count .positive
    let neu := sentiments.count .neutral
    let neg := sentiments.count .negative
    if pos > neg ∧ pos > neu then .positive
    else if neg > pos ∧ neg > neu then .negative
    else .neutral

/-- The `rankings` entries of one response naming `name`. -/
def rankingEntriesFor (name : String) (r : AIResponse) : List CompanyRanking :=
  match r.rankings with
  | some rs => rs.filter (fun e => e.company = name)
  | none => []

/-- Whether `name` occurs in the `rankings` of `r`. This is both the state of
the `mentionedInResponse` set after the rankings loop of `analyzeCompetitors`
(for a tracked `name`) and the `response.rankings?.some(r => r.company ===
company.name)` test of `analyzeCompetitorsByProvider`. -/
def inRankings (name : String) (r : AIResponse) : Bool :=
  match r.rankings with
  | some rs => rs.any (fun e => e.company == name)
  | none => false

/-- Guard of the brand-fallback block: `response.brandMentioned &&
trackedCompanies.has(company.name) && !mentionedInResponse.has(company.name)`.
The brand is always tracked (it is the first element inserted into the set),
and after the rankings loop `mentionedInResponse.has(brand)` holds exactly
when the brand occurs in this response's `rankings`. -/
def brandFallback (brand : String) (r : AIResponse) : Bool :=
  r.brandMentioned && !(inRankings brand r)

/-- `if (response.brandPosition)` is a JavaScript truthiness test: `undefined`
and `0` are both falsy, so a position is pushed only when present and nonzero. -/
def brandPositionSamples (r : AIResponse) : List ℚ :=
  match r.brandPosition with
  | some p => if p = 0 then [] else [p]
  | none => []

/-- Mention increments `analyzeCompetitors` records in bucket `name` for one
response: at most one from the rankings loop (the `mentionedInResponse` set
admits a single increment per response) plus the brand-fallback increment,
which fires only when the brand is absent from this response's rankings. The
`competitorMap` buckets are updated independently of each other, so the whole
`responses.forEach` loop is, per bucket, a sum of per-response contributions. -/
def globalMentionContrib (brand name : String) (r : AIResponse) : ℕ :=
  (if inRankings name r then 1 else 0) +
    (if name = brand ∧ brandFallback brand r then 1 else 0)

/-- Position samples pushed into bucket `name` by one response: one per
matching rankings entry (duplicates included), then the brand-fallback position. -/
def positionContrib (brand name : String) (r : AIResponse) : List ℚ :=
  (rankingEntriesFor name r).map (fun e => e.position) ++
    (if name = brand ∧ brandFallback brand r then brandPositionSamples r else [])

/-- Sentiment samples pushed into bucket `name` by one response: one per
matching rankings entry carrying a sentiment, then the brand-fallback
`response.sentiment`. -/
def sentimentContrib (brand name : String) (r : AIResponse) : List Sentiment :=
  (rankingEntriesFor name r).filterMap (fun e => e.sentiment) ++
    (if name = brand ∧ brandFallback brand r then [r.sentiment] else [])

/-- Final `mentions` counter of bucket `name` in `analyzeCompetitors`. -/
def globalMentions (brand name : String) (responses : List AIResponse) : ℕ :=
  (responses.map (globalMentionContrib brand name)).sum

/-- Final `positions` array of bucket `name` in `analyzeCompetitors`. -/
def globalPositions (brand name : String) (responses : List AIResponse) : List ℚ :=
  (responses.map (positionContrib brand name)).flatten

/-- Final `sentiments` array of bucket `name` in `analyzeCompetitors`. -/
def globalSentiments (brand name : String) (responses : List AIResponse) :
    List Sentiment :=
  (responses.map (sentimentContrib brand name)).flatten

/-- `positions.length > 0 ? positions.reduce((a, b) => a + b, 0) /
positions.length : 99`. -/
def avgPositionOf (positions : List ℚ) : ℚ :=
  if positions.length = 0 then 99 else positions.sum / positions.length

/-- One entry pushed by the `competitorMap.forEach` of `analyzeCompetitors`,
before the share-of-voice pass. -/
def mkGlobalEntry (brand : String) (responses : List AIResponse)
    (name : String) : CompetitorRanking :=
  { name := name
    mentions := globalMentions brand name responses
    averagePosition := round1 (avgPositionOf (globalPositions brand name responses))
    sentiment := determineSentiment (globalSentiments brand name responses)
    sentimentScore := calculateSentimentScore (globalSentiments brand name responses)
    shareOfVoice := 0
    visibilityScore :=
      round1 ((globalMentions brand name responses : ℚ) / (responses.length : ℚ) * 100)
    weeklyChange := none
    isOwn := name == brand }

/-- `Math.round((mentions / totalMentions) * 1000) / 10`. -/
def sovOf (mentions totalMentions : ℕ) : ℚ :=
  (round ((mentions : ℚ) / (totalMentions : ℚ) * 1000) : ℤ) / 10

/-- The unrounded share-of-voice percentage `mentions / totalMentions * 100`,
of which `sovOf` is the one-decimal rounding. -/
def sovExact (mentions totalMentions : ℕ) : ℚ :=
  (mentions : ℚ) / (totalMentions : ℚ) * 100

/-- The second pass of both aggregators: fill in `shareOfVoice` from the total
mention count of the already-built entry list. -/
def assignShareOfVoice (competitors : List CompetitorRanking) :
    List CompetitorRanking :=
  let totalMentions := (competitors.map (fun c => c.mentions)).sum
  competitors.map (fun c =>
    { c with shareOfVoice := if totalMentions > 0 then sovOf c.mentions totalMentions else 0 })

/-- `analyzeCompetitors` (ai-utils.ts lines 819-915). The `company` argument
enters only through `company.name`, passed here as `brand`. -/
def analyzeCompetitors (brand : String) (responses : List AIResponse)
    (knownCompetitors : List String) : List CompetitorRanking :=
  let tracked := trackedCompanies brand knownCompetitors
  let competitors := tracked.map (mkGlobalEntry brand responses)
  sortByDesc (fun c => c.visibilityScore) (assignShareOfVoice competitors)

/-- Return type of `calculateBrandScores`. -/
structure BrandScores where
  visibilityScore : ℚ
  sentimentScore : ℚ
  shareOfVoice : ℚ
  overallScore : ℚ
  averagePosition : ℚ
deriving DecidableEq, Repr

/-- The all-zero result returned on the two early exits of
`calculateBrandScores`. -/
def zeroBrandScores : BrandScores :=
  { visibilityScore := 0, sentimentScore := 0, shareOfVoice := 0
    overallScore := 0, averagePosition := 0 }

/-- `positionScore` of `calculateBrandScores`: `(11 - p) * 10` for `p ≤ 10`,
`max(0, 100 - p * 2)` beyond. -/
def positionScoreOf (averagePosition : ℚ) : ℚ :=
  if averagePosition ≤ 10 then (11 - averagePosition) * 10
  else max 0 (100 - averagePosition * 2)

/-- `calculateBrandScores` (ai-utils.ts lines 936-986). The `brandName`
parameter is unused in the source body as well (the brand entry is located via
`isOwn`). The literals `0.3`/`0.2` are the exact rationals `3/10`/`2/10`. -/
def calculateBrandScores (responses : List AIResponse) (brandName : String)
    (competitors : List CompetitorRanking) : BrandScores :=
  if responses.length = 0 then zeroBrandScores
  else
    match competitors.find? (fun c => c.isOwn) with
    | none => zeroBrandScores
    | some brandRanking =>
      let visibilityScore := brandRanking.visibilityScore
      let sentimentScore := brandRanking.sentimentScore
      let shareOfVoice := brandRanking.shareOfVoice
      let averagePosition := brandRanking.averagePosition
      let positionScore := positionScoreOf averagePosition
      let overallScore := visibilityScore * (3/10) + sentimentScore * (2/10) +
        shareOfVoice * (3/10) + positionScore * (2/10)
      { visibilityScore := round1 visibilityScore
        sentimentScore := round1 sentimentScore
        shareOfVoice := round1 shareOfVoice
        overallScore := round1 overallScore
        averagePosition := round1 averagePosition }

/-- `ProviderSpecificRanking` of the source. -/
structure ProviderSpecificRanking where
  provider : String
  competitors : List CompetitorRanking
deriving DecidableEq, Repr

/-- One cell of the provider-comparison pivot. -/
structure ProviderMetric where
  visibilityScore : ℚ
  position : ℚ
  mentions : ℕ
  sentiment : Sentiment
deriving DecidableEq, Repr

/-- `ProviderComparisonData` of the source. The `providers` JavaScript object
is modelled as an association list: keys in first-assignment order, a repeated
assignment overwriting the value in place. -/
structure ProviderComparisonData where
  competitor : String
  providers : List (String × ProviderMetric)
  isOwn : Bool
deriving DecidableEq, Repr

/-- JavaScript object property assignment `obj[key] = val` on the association
list model. -/
def objSet {β : Type} (obj : List (String × β)) (key : String) (val : β) :
    List (String × β) :=
  if obj.any (fun kv => kv.1 == key) then
    obj.map (fun kv => if kv.1 == key then (kv.1, val) else kv)
  else obj ++ [(key, val)]

/-- `responses.filter(r => r.provider === provider)`. -/
def providerResponses (responses : List AIResponse) (provider : String) :
    List AIResponse :=
  responses.filter (fun r => r.provider == provider)

/-- Mention increments recorded by `analyzeCompetitorsByProvider` in the bucket
for `name` from one response of the bucket's provider. Unlike the global loop
there is no `mentionedInResponse` guard: `data.mentions++` runs once per
matching rankings entry (ai-utils.ts lines 1034-1044); the brand-fallback block
(lines 1047-1057) fires only when the brand is absent from the rankings. The
source folds over all responses dispatching on `providerData.get(
response.provider)`, so the bucket for provider `p` receives exactly the
responses with `provider = p`, in list order; responses whose provider has no
bucket are skipped (`if (!providerMap) return`). -/
def providerMentionContrib (brand name : String) (r : AIResponse) : ℕ :=
  (rankingEntriesFor name r).length +
    (if name = brand ∧ brandFallback brand r then 1 else 0)

/-- Final `mentions` counter of the `(provider, name)` bucket, over the
responses of that provider. -/
def providerMentions (brand name : String) (rs : List AIResponse) : ℕ :=
  (rs.map (providerMentionContrib brand name)).sum

/-- Final `positions` array of the `(provider, name)` bucket: the per-response
position pushes are identical to the global loop's (`positionContrib`). -/
def providerPositions (brand name : String) (rs : List AIResponse) : List ℚ :=
  (rs.map (positionContrib brand name)).flatten

/-- Final `sentiments` array of the `(provider, name)` bucket. -/
def providerSentiments (brand name : String) (rs : List AIResponse) :
    List Sentiment :=
  (rs.map (sentimentContrib brand name)).flatten

/-- One entry pushed by the `competitorMap.forEach` of
`analyzeCompetitorsByProvider` (lines 1070-1089), before the share-of-voice
pass; `rs` is the response list of this entry's provider. The `visibilityScore`
denominator is `totalResponses = providerResponses.length`, guarded against
zero. The source leaves `weeklyChange` out (undefined). -/
def mkProviderEntry (brand : String) (rs : List AIResponse) (name : String) :
    CompetitorRanking :=
  { name := name
    mentions := providerMentions brand name rs
    averagePosition := round1 (avgPositionOf (providerPositions brand name rs))
    sentiment := determineSentiment (providerSentiments brand name rs)
    sentimentScore := calculateSentimentScore (providerSentiments brand name rs)
    shareOfVoice := 0
    visibilityScore :=
      if 0 < rs.length then
        round1 ((providerMentions brand name rs : ℚ) / (rs.length : ℚ) * 100)
      else 0
    weeklyChange := none
    isOwn := name == brand }

/-- The `ProviderSpecificRanking` built for one provider: same entry + share-of
-voice + sort pipeline as the global scope, over that provider's responses. -/
def rankingForProvider (brand : String) (responses : List AIResponse)
    (knownCompetitors : List String) (provider : String) :
    ProviderSpecificRanking :=
  let tracked := trackedCompanies brand knownCompetitors
  let rs := providerResponses responses provider
  { provider := provider
    competitors :=
      sortByDesc (fun c => c.visibilityScore)
        (assignShareOfVoice (tracked.map (mkProviderEntry brand rs))) }

/-- The hard-coded fallback list used when no provider is configured
(ai-utils.ts lines 1003-1006). -/
def defaultProviderNames : List String := ["OpenAI", "Anthropic", "Google"]

/-- One row of the provider-comparison pivot (lines 1111-1131): for each
provider ranking, look the company up and assign the cell; a company missing
from a provider's ranking contributes no key (in fact every tracked company is
present in every ranking, since rankings carry one entry per tracked company). -/
def comparisonRow (brand : String)
    (providerRankings : List ProviderSpecificRanking) (name : String) :
    ProviderComparisonData :=
  { competitor := name
    providers := providerRankings.foldl
      (fun obj pr =>
        match pr.competitors.find? (fun c => c.name == name) with
        | some c => objSet obj pr.provider
            ⟨c.visibilityScore, c.averagePosition, c.mentions, c.sentiment⟩
        | none => obj)
      []
    isOwn := name == brand }

/-- The sort key of the comparison rows: mean `visibilityScore` over the
providers present for the row (lines 1134-1138). Rows always carry at least
one provider, so the division is never `0 / 0`. -/
def meanProviderVisibility (row : ProviderComparisonData) : ℚ :=
  (row.providers.map (fun kv => kv.2.visibilityScore)).sum /
    (row.providers.length : ℚ)

/-- The effective provider list: the configured display names, or the
hard-coded default trio when none is configured (ai-utils.ts lines 999-1006). -/
def providersOf (configuredProviderNames : List String) : List String :=
  if configuredProviderNames.isEmpty then defaultProviderNames
  else configuredProviderNames

/-- `analyzeCompetitorsByProvider` (ai-utils.ts lines 988-1141).
`configuredProviderNames` is the display-name list from
`getConfiguredProviders()` (`src/lib/provider-config.ts` is not under `src/`;
spec §6 treats the provider registry as an external collaborator, so the list
is passed in). The `company` argument enters only through `company.name`. -/
def analyzeCompetitorsByProvider (configuredProviderNames : List String)
    (brand : String) (responses : List AIResponse)
    (knownCompetitors : List String) :
    List ProviderSpecificRanking × List ProviderComparisonData :=
  let providers := providersOf configuredProviderNames
  let providerRankings := providers.map (rankingForProvider brand responses knownCompetitors)
  let tracked := trackedCompanies brand knownCompetitors
  (providerRankings,
    sortByDesc meanProviderVisibility (tracked.map (comparisonRow brand providerRankings)))

/-- Options of the Entity Mention Detector (spec §4.1); the call sites in
ai-utils.ts pass case-insensitive, whole-word, with-variations options. -/
structure BrandDetectionOptions where
  caseSensitive : Bool := false
  wholeWordOnly : Bool := true
  includeVariations : Bool := true
deriving DecidableEq, Repr

/-- One detector match. -/
structure BrandMatch where
  text : String
  index : ℕ
  confidence : ℚ
deriving DecidableEq, Repr

/-- Result of the Entity Mention Detector. The `matchList` field is called
`matches` in the source; renamed here because `matches` is reserved in Lean. -/
structure BrandDetectionResult where
  mentioned : Bool
  confidence : ℚ
  matchList : List BrandMatch
deriving DecidableEq, Repr

/-- Word characters for the `wholeWordOnly` boundary test: punctuation-adjacent
occurrences count as word boundaries (spec §4.1). -/
def isWordChar (c : Char) : Bool := c.isAlphanum

/-- Whether `pat` is an initial segment of `chars`. -/
def charsMatchAt : List Char → List Char → Bool
  | [], _ => true
  | _ :: _, [] => false
  | p :: ps, c :: cs => p == c && charsMatchAt ps cs

/-- A boundary: the text edge or a non-word character. -/
def wordBoundary : Option Char → Bool
  | none => true
  | some c => !(isWordChar c)

/-- The character `n` positions into `l`, when it exists. -/
def charAfter (l : List Char) (n : ℕ) : Option Char := (l.drop n).head?

/-- All indices at which the nonempty pattern `pat` occurs in the remaining
text, `wholeWord` demanding a boundary on both sides; `prev` is the character
before the current position and `i` its index. -/
def occurrencesAux (pat : List Char) (wholeWord : Bool) :
    Option Char → ℕ → List Char → List ℕ
  | _, _, [] => []
  | prev, i, c :: cs =>
    let rest := c :: cs
    let ok := pat.length != 0 && charsMatchAt pat rest &&
      (!wholeWord || (wordBoundary prev && wordBoundary (charAfter rest pat.length)))
    let tail := occurrencesAux pat wholeWord (some c) (i + 1) cs
    if ok then i :: tail else tail

/-- Character-wise lowercasing (JavaScript `toLowerCase`), written over the
character list so that it evaluates by plain structural recursion. -/
def lowerChars (l : List Char) : List Char := l.map Char.toLower

/-- Space removal (the `replace(/\s+/g, '')` no-space variant). -/
def stripSpaces (l : List Char) : List Char := l.filter (fun c => c != ' ')

/-- Modelled from the spec: the name variants tried by the Entity Mention
Detector of `src/lib/brand-detection-utils.ts`, a file this repository imports
but that is not present under `src/`. Spec §4.1: the name itself, a no-space
variant of a multi-word name, and the lowercase forms; possessive forms
(`Name's`) and legal suffixes (`Name Inc`) are matched because `'` and ` ` are
word boundaries for the whole-word test. -/
def brandVariants (name : String) (includeVariations : Bool) : List (List Char) :=
  if includeVariations then
    dedupKeepFirst [name.data, stripSpaces name.data,
      lowerChars name.data, lowerChars (stripSpaces name.data)]
  else [name.data]

/-- Modelled from the spec: the match list of the Entity Mention Detector.
Exact-variant matches weigh 1, other variants 4/5 (spec §4.1 fixes only the
ordering of the weights, not their values). -/
def findMatches (text name : String) (opts : BrandDetectionOptions) :
    List BrandMatch :=
  let tChars := if opts.caseSensitive then text.data else lowerChars text.data
  ((brandVariants name opts.includeVariations).map (fun v =>
    let vChars := if opts.caseSensitive then v else lowerChars v
    let conf : ℚ := if v == name.data then 1 else 4/5
    (occurrencesAux vChars opts.wholeWordOnly none 0 tChars).map
      (fun i => { text := String.mk v, index := i, confidence := conf }))).flatten

/-- Modelled from the spec: `detectBrandMention` of
`src/lib/brand-detection-utils.ts` (not under `src/`). Overall confidence is
the maximum of the per-match confidences, capped at 1 (spec §4.1);
deterministic in its inputs. -/
def detectBrandMention (text name : String) (opts : BrandDetectionOptions) :
    BrandDetectionResult :=
  let ms := findMatches text name opts
  { mentioned := !ms.isEmpty
    confidence := min 1 ((ms.map (fun m => m.confidence)).foldr max 0)
    matchList := ms }

/-- Modelled from the spec: `detectMultipleBrands` applies the single-entity
detector independently per name (spec §4.1); the `Map` is an association list
in `names` order. -/
def detectMultipleBrands (text : String) (names : List String)
    (opts : BrandDetectionOptions) : List (String × BrandDetectionResult) :=
  names.map (fun n => (n, detectBrandMention text n opts))

/-- Modelled from the spec: `getBrandDetectionOptions` of
`src/lib/brand-detection-config.ts` (not under `src/`): the per-brand options;
spec §4.1 gives `wholeWordOnly` default true, and every detection fallback in
ai-utils.ts uses case-insensitive matching with variations. -/
def getBrandDetectionOptions (_brand : String) : BrandDetectionOptions :=
  { caseSensitive := false, wholeWordOnly := true, includeVariations := true }

/-- The `analysis` object of `RankingSchema`. -/
structure StructuredAnalysis where
  brandMentioned : Bool
  brandPosition : Option ℚ := none
  competitors : List String
  overallSentiment : Sentiment
  confidence : ℚ
deriving DecidableEq, Repr

/-- The object produced by the schema-constrained `generateObject` call. -/
structure StructuredObject where
  rankings : List CompanyRanking
  analysis : StructuredAnalysis
deriving DecidableEq, Repr

/-- The provider display-name mapping of ai-utils.ts lines 754-758. -/
def providerDisplayName (provider : String) : String :=
  if provider == "openai" then "OpenAI"
  else if provider == "anthropic" then "Anthropic"
  else if provider == "google" then "Google"
  else if provider == "perplexity" then "Perplexity"
  else provider

/-- The structured-success interpretation path of `analyzePromptWithProvider`
(ai-utils.ts lines 705-801): the structured `brandMentioned` is OR-merged with
the detector result over the raw text; AI-reported competitors are unioned
with detector-found ones, then filtered to the tracked set. The source maps
`object.rankings` entry-wise onto records with the same four fields, which is
the identity here. -/
def interpretStructured (provider prompt brandName : String)
    (competitors : List String) (text : String) (object : StructuredObject) :
    AIResponse :=
  let brandDetectionResult :=
    detectBrandMention text brandName (getBrandDetectionOptions brandName)
  let brandMentioned := object.analysis.brandMentioned || brandDetectionResult.mentioned
  let competitorDetections := competitors.map
    (fun c => (c, detectBrandMention text c (getBrandDetectionOptions c)))
  let allMentioned := competitorDetections.foldl
    (fun s cd =>
      if cd.2.mentioned && cd.1 != brandName && !(s.contains cd.1) then s ++ [cd.1]
      else s)
    (dedupKeepFirst object.analysis.competitors)
  let relevantCompetitors := allMentioned.filter
    (fun c => c ∈ competitors ∧ c ≠ brandName)
  { provider := providerDisplayName provider
    prompt := prompt
    response := text
    rankings := some object.rankings
    competitors := relevantCompetitors
    brandMentioned := brandMentioned
    brandPosition := object.analysis.brandPosition
    sentiment := object.analysis.overallSentiment
    confidence := object.analysis.confidence }

/-- JavaScript `String.includes` for a nonempty needle. -/
def containsSub (s : List Char) (pat : String) : Bool :=
  !(occurrencesAux pat.data false none 0 s).isEmpty

/-- JavaScript `split('\n')` over the character list. -/
def splitOnNewline : List Char → List (List Char)
  | [] => [[]]
  | c :: cs =>
    let r := splitOnNewline cs
    if c == '\n' then [] :: r
    else
      match r with
      | [] => [[c]]
      | h :: t => (c :: h) :: t

/-- The Anthropic simple-text fallback path (ai-utils.ts lines 622-676): parse
the plain follow-up answer line-wise (`yes` token means mentioned), OR-merged
with the detector floor. -/
def interpretAnthropicSimple (provider prompt brandName : String)
    (competitors : List String) (text simpleResponse : String) : AIResponse :=
  let lines := splitOnNewline (lowerChars simpleResponse.data)
  let aiSaysBrandMentioned := lines.any (fun line => containsSub line "yes")
  let opts : BrandDetectionOptions := ⟨false, true, true⟩
  let brandDetection := detectBrandMention text brandName opts
  let competitorDetections := detectMultipleBrands text competitors opts
  { provider := provider
    prompt := prompt
    response := text
    rankings := some []
    competitors := competitors.filter (fun c =>
      match competitorDetections.find? (fun kv => kv.1 == c) with
      | some kv => kv.2.mentioned
      | none => false)
    brandMentioned := aiSaysBrandMentioned || brandDetection.mentioned
    brandPosition := none
    sentiment := .neutral
    confidence := 7/10 }

/-- The pure heuristic fallback path (ai-utils.ts lines 678-702): detector
only, neutral sentiment, detector confidence scaled by 0.5. -/
def interpretHeuristicFallback (provider prompt brandName : String)
    (competitors : List String) (text : String) : AIResponse :=
  let opts : BrandDetectionOptions := ⟨false, true, true⟩
  let brandDetection := detectBrandMention text brandName opts
  let competitorDetections := detectMultipleBrands text competitors opts
  { provider := provider
    prompt := prompt
    response := text
    rankings := some []
    competitors := competitors.filter (fun c =>
      match competitorDetections.find? (fun kv => kv.1 == c) with
      | some kv => kv.2.mentioned
      | none => false)
    brandMentioned := brandDetection.mentioned
    brandPosition := none
    sentiment := .neutral
    confidence := brandDetection.confidence * (1/2) }

/-- `analyzePromptWithProvider` (ai-utils.ts lines 518-817) after the external
calls: `text` is what the `generateText` collaborator returned, `structured`
is `some object` when the `generateObject` call succeeded, and
`anthropicSimple` the text of the Anthropic plain follow-up call when that
call was made and succeeded (spec §6 makes all model calls external). The
empty-text check (lines 567-570) throws inside the `try`; the outer `catch`
(lines 802-816) logs and rethrows, so the error propagates to the caller —
modelled as `Except.error`. The pre-`try` mock mode and the unconfigured-
provider `null` early return concern the external provider registry and are
not modelled. -/
def analyzePromptWithProvider (provider prompt brandName : String)
    (competitors : List String) (text : String)
    (structured : Option StructuredObject) (anthropicSimple : Option String) :
    Except String AIResponse :=
  if text.length = 0 then
    Except.error (provider ++ " returned empty response")
  else
    match structured with
    | some object =>
      Except.ok (interpretStructured provider prompt brandName competitors text object)
    | none =>
      if provider == "Anthropic" then
        match anthropicSimple with
        | some simpleResponse =>
          Except.ok (interpretAnthropicSimple provider prompt brandName competitors
            text simpleResponse)
        | none =>
          Except.ok (interpretHeuristicFallback provider prompt brandName competitors text)
      else
        Except.ok (interpretHeuristicFallback provider prompt brandName competitors text)

/-- Sample response used by witness and counterexample theorems: a response
from provider "OpenAI" whose rankings list the tracked competitor "Acme"
twice. -/
def rAcmeTwice : AIResponse :=
  { provider := "OpenAI", prompt := "p", response := "t"
    rankings := some [{ position := 1, company := "Acme" },
      { position := 2, company := "Acme" }]
    competitors := ["Acme"], brandMentioned := false, brandPosition := none
    sentiment := .neutral, confidence := 1 }

/-- Sample response: the brand ranked second with positive sentiment. -/
def rBrandRanked : AIResponse :=
  { provider := "OpenAI", prompt := "p", response := "t"
    rankings := some [{ position := 2, company := "BrandCo", sentiment := some .positive }]
    competitors := [], brandMentioned := true, brandPosition := some 2
    sentiment := .positive, confidence := 1 }

/-- Sample response: the brand mentioned without any recorded position. -/
def rBrandOnly : AIResponse :=
  { provider := "Anthropic", prompt := "p", response := "t"
    rankings := some [], competitors := [], brandMentioned := true
    brandPosition := none, sentiment := .neutral, confidence := 1 }

/-- Sample response: six tracked companies, each ranked exactly once. -/
def rSixCompanies : AIResponse :=
  { provider := "OpenAI", prompt := "p", response := "t"
    rankings := some [⟨1, "A", none, none⟩, ⟨2, "B", none, none⟩,
      ⟨3, "C", none, none⟩, ⟨4, "D", none, none⟩, ⟨5, "E", none, none⟩,
      ⟨6, "F", none, none⟩]
    competitors := ["B", "C", "D", "E", "F"], brandMentioned := true
    brandPosition := some 1, sentiment := .neutral, confidence := 1 }

/-- Sample structured-extraction output: the brand "Acme" appears in
`rankings`, but `analysis.brandMentioned` is false. -/
def objC4 : StructuredObject :=
  { rankings := [⟨1, "Acme", none, none⟩]
    analysis := ⟨false, none, [], .neutral, 9/10⟩ }

/-- Sample aggregated brand entry fed to the scorer by a witness theorem. -/
def brandEntryW : CompetitorRanking :=
  { name := "BrandCo", mentions := 3, averagePosition := 2, sentiment := .neutral
    sentimentScore := 50, shareOfVoice := 60, visibilityScore := 60, isOwn := true }

attribute [local semireducible] Rat.mul Rat.inv Rat.add Rat.sub Rat.ofScientific

theorem insertByDesc_perm {α : Type} (key : α → ℚ) (a : α) (l : List α) :
    (insertByDesc key a l).Perm (a :: l) := by
  induction l with
  | nil => simp [insertByDesc]
  | cons b bs ih =>
    by_cases h : key b ≤ key a
    · simp [insertByDesc, h]
    · simp only [insertByDesc, if_neg h]
      exact (ih.cons b).trans (List.Perm.swap a b bs)

theorem sortByDesc_perm {α : Type} (key : α → ℚ) (l : List α) :
    (sortByDesc key l).Perm l := by
  induction l with
  | nil => simp [sortByDesc]
  | cons a l ih =>
    exact (insertByDesc_perm key a (sortByDesc key l)).trans (ih.cons a)

theorem mem_sortByDesc {α : Type} {key : α → ℚ} {a : α} {l : List α} :
    a ∈ sortByDesc key l ↔ a ∈ l :=
  (sortByDesc_perm key l).mem_iff

/-- C5: scoring with an empty response list returns the all-zero summary — no
NaN and no 99/50 fallback values. -/
theorem calculateBrandScores_empty (brandName : String)
    (competitors : List CompetitorRanking) :
    calculateBrandScores [] brandName competitors =
      { visibilityScore := 0, sentimentScore := 0, shareOfVoice := 0
        overallScore := 0, averagePosition := 0 } := rfl

/-- C9: an empty model answer makes `analyzePromptWithProvider` propagate an
error to its caller instead of returning an `AIResponse`, whatever the other
call results were. -/
theorem analyzePromptWithProvider_empty_text (provider prompt brandName : String)
    (competitors : List String) (structured : Option StructuredObject)
    (anthropicSimple : Option String) :
    analyzePromptWithProvider provider prompt brandName competitors ""
        structured anthropicSimple =
      Except.error (provider ++ " returned empty response") := rfl

/-- C4 (amended): on the structured-success path, `brandMentioned` of the
returned result is the OR of the structured analysis flag and the Entity
Mention Detector result on the raw text — an appearance of the brand in
`rankings` alone does not force it. -/
theorem interpretStructured_brandMentioned (provider prompt brandName : String)
    (competitors : List String) (text : String) (object : StructuredObject) :
    (interpretStructured provider prompt brandName competitors text object).brandMentioned =
      (object.analysis.brandMentioned ||
        (detectBrandMention text brandName (getBrandDetectionOptions brandName)).mentioned) :=
  rfl

/-- C4 counterexample: the brand "Acme" appears in the structured `rankings`,
`analysis.brandMentioned` is false and the raw text does not contain the brand,
yet the interpreted result reports `brandMentioned = false` — the claim's
"brand appears in rankings" disjunct does not hold of the code. -/
theorem interpretStructured_rankings_not_unioned :
    (objC4.rankings.map (fun e => e.company) = ["Acme"]) ∧
    (interpretStructured "openai" "p" "Acme" ["Beta"]
        "we compare zzz and qqq" objC4).brandMentioned = false := by
  decide

/-- C1: evaluation at the failing input. A single response listing "Acme"
twice in `rankings` yields `mentions = 1` for Acme in the global scope
(`analyzeCompetitors` dedupes through its `mentionedInResponse` set) but
`mentions = 2` in the per-provider scope (`analyzeCompetitorsByProvider` has
no such guard), contradicting the claimed at-most-one increment per response. -/
theorem perProvider_double_counts_mentions :
    (((analyzeCompetitors "BrandCo" [rAcmeTwice] ["Acme"]).find?
        (fun c => c.name == "Acme")).map (fun c => c.mentions) = some 1) ∧
    (((analyzeCompetitorsByProvider ["OpenAI"] "BrandCo" [rAcmeTwice] ["Acme"]).1.map
        (fun pr => (pr.competitors.find? (fun c => c.name == "Acme")).map
          (fun c => c.mentions))) = [some 2]) := by
  decide

/-- C8: with a nonempty response list and a brand entry present, the scorer
returns exactly the position-score and weighted-blend formulas of the source,
each output field rounded to one decimal. -/
theorem calculateBrandScores_formula (responses : List AIResponse)
    (brandName : String) (competitors : List CompetitorRanking)
    (br : CompetitorRanking) (h0 : responses.length ≠ 0)
    (hfind : competitors.find? (fun c => c.isOwn) = some br) :
    calculateBrandScores responses brandName competitors =
      { visibilityScore := round1 br.visibilityScore
        sentimentScore := round1 br.sentimentScore
        shareOfVoice := round1 br.shareOfVoice
        overallScore := round1 (br.visibilityScore * (3/10) +
          br.sentimentScore * (2/10) + br.shareOfVoice * (3/10) +
          (if br.averagePosition ≤ 10 then (11 - br.averagePosition) * 10
            else max 0 (100 - br.averagePosition * 2)) * (2/10))
        averagePosition := round1 br.averagePosition } := by
  simp only [calculateBrandScores, if_neg h0, hfind, positionScoreOf]

/-- C8 witness: the scorer applied to a concrete brand entry
(visibility 60, sentiment 50, share 60, average position 2). -/
theorem calculateBrandScores_formula_witness :
    calculateBrandScores [rBrandRanked] "BrandCo" [brandEntryW] =
      { visibilityScore := 60, sentimentScore := 50, shareOfVoice := 60
        overallScore := 64, averagePosition := 2 } := by
  have h := calculateBrandScores_formula [rBrandRanked] "BrandCo" [brandEntryW]
    brandEntryW (by decide) (by decide)
  rw [h]
  decide

theorem analyzeCompetitors_mem {brand : String} {responses : List AIResponse}
    {known : List String} {c : CompetitorRanking}
    (hc : c ∈ analyzeCompetitors brand responses known) :
    ∃ name ∈ trackedCompanies brand known,
      c.name = name ∧
      c.mentions = globalMentions brand name responses ∧
      c.averagePosition = round1 (avgPositionOf (globalPositions brand name responses)) ∧
      c.visibilityScore =
        round1 ((globalMentions brand name responses : ℚ) / (responses.length : ℚ) * 100) := by
  simp only [analyzeCompetitors, mem_sortByDesc, assignShareOfVoice,
    List.mem_map] at hc
  obtain ⟨b, ⟨name, hname, rfl⟩, rfl⟩ := hc
  exact ⟨name, hname, rfl, rfl, rfl, rfl⟩

theorem analyzeCompetitorsByProvider_rankings_mem {names : List String}
    {brand : String} {responses : List AIResponse} {known : List String}
    {pr : ProviderSpecificRanking}
    (hpr : pr ∈ (analyzeCompetitorsByProvider names brand responses known).1) :
    ∃ p ∈ providersOf names, pr = rankingForProvider brand responses known p := by
  simp only [analyzeCompetitorsByProvider, List.mem_map] at hpr
  obtain ⟨p, hp, rfl⟩ := hpr
  exact ⟨p, hp, rfl⟩

theorem rankingForProvider_mem {brand : String} {responses : List AIResponse}
    {known : List String} {p : String} {c : CompetitorRanking}
    (hc : c ∈ (rankingForProvider brand responses known p).competitors) :
    ∃ name ∈ trackedCompanies brand known,
      c.name = name ∧
      c.mentions = providerMentions brand name (providerResponses responses p) ∧
      c.averagePosition =
        round1 (avgPositionOf (providerPositions brand name (providerResponses responses p))) ∧
      c.visibilityScore =
        (if 0 < (providerResponses responses p).length then
          round1 ((providerMentions brand name (providerResponses responses p) : ℚ) /
            ((providerResponses responses p).length : ℚ) * 100)
        else 0) := by
  simp only [rankingForProvider, mem_sortByDesc, assignShareOfVoice,
    List.mem_map] at hc
  obtain ⟨b, ⟨name, hname, rfl⟩, rfl⟩ := hc
  exact ⟨name, hname, rfl, rfl, rfl, rfl⟩

theorem rankingForProvider_provider (brand : String) (responses : List AIResponse)
    (known : List String) (p : String) :
    (rankingForProvider brand responses known p).provider = p := rfl

theorem round1_ninetynine : round1 99 = 99 := by decide

theorem round1_avgPositionOf (P : List ℚ) :
    round1 (avgPositionOf P) =
      if P = [] then 99 else round1 (P.sum / (P.length : ℚ)) := by
  by_cases h : P = []
  · subst h
    simpa [avgPositionOf] using round1_ninetynine
  · simp [avgPositionOf, h, List.length_eq_zero]

/-- C6: in both aggregation scopes, every reported entry's `averagePosition`
is exactly 99 when no position was recorded for that company, and the
one-decimal rounding of the arithmetic mean of the recorded positions
otherwise. -/
theorem averagePosition_sentinel (brand : String) (responses : List AIResponse)
    (known : List String) :
    (∀ c ∈ analyzeCompetitors brand responses known,
      c.averagePosition =
        if globalPositions brand c.name responses = [] then 99
        else round1 ((globalPositions brand c.name responses).sum /
          ((globalPositions brand c.name responses).length : ℚ))) ∧
    (∀ names : List String,
      ∀ pr ∈ (analyzeCompetitorsByProvider names brand responses known).1,
      ∀ c ∈ pr.competitors,
        c.averagePosition =
          if providerPositions brand c.name (providerResponses responses pr.provider) = [] then 99
          else round1 ((providerPositions brand c.name (providerResponses responses pr.provider)).sum /
            ((providerPositions brand c.name (providerResponses responses pr.provider)).length : ℚ))) := by
  constructor
  · intro c hc
    obtain ⟨name, _, hn, _, hap, _⟩ := analyzeCompetitors_mem hc
    rw [hn, hap, round1_avgPositionOf]
  · intro names pr hpr c hc
    obtain ⟨p, _, rfl⟩ := analyzeCompetitorsByProvider_rankings_mem hpr
    obtain ⟨name, _, hn, _, hap, _⟩ := rankingForProvider_mem hc
    rw [hn, hap, round1_avgPositionOf, rankingForProvider_provider]

/-- C6 witness: in the aggregation of a single response that mentions the
brand without ranking it, the brand entry reports `mentions = 1` and the 99
sentinel average position. -/
theorem averagePosition_sentinel_witness :
    (⟨"BrandCo", 1, 99, .neutral, 50, 100, 100, none, true⟩ : CompetitorRanking).averagePosition =
      if globalPositions "BrandCo"
          (⟨"BrandCo", 1, 99, .neutral, 50, 100, 100, none, true⟩ : CompetitorRanking).name
          [rBrandOnly] = [] then 99
      else round1 ((globalPositions "BrandCo" "BrandCo" [rBrandOnly]).sum /
        ((globalPositions "BrandCo" "BrandCo" [rBrandOnly]).length : ℚ)) :=
  (averagePosition_sentinel "BrandCo" [rBrandOnly] ["Acme"]).1
    ⟨"BrandCo", 1, 99, .neutral, 50, 100, 100, none, true⟩ (by decide)

/-- C7: in per-provider aggregation, every entry's `visibilityScore` is its
own `mentions` divided by the response count of that entry's provider only,
times 100, rounded to one decimal — and 0 when that provider has no
responses. -/
theorem provider_visibilityScore_formula (names : List String) (brand : String)
    (responses : List AIResponse) (known : List String) :
    ∀ pr ∈ (analyzeCompetitorsByProvider names brand responses known).1,
    ∀ c ∈ pr.competitors,
      c.visibilityScore =
        if (providerResponses responses pr.provider).length = 0 then 0
        else round1 ((c.mentions : ℚ) /
          ((providerResponses responses pr.provider).length : ℚ) * 100) := by
  intro pr hpr c hc
  obtain ⟨p, _, rfl⟩ := analyzeCompetitorsByProvider_rankings_mem hpr
  obtain ⟨name, _, _, hm, _, hv⟩ := rankingForProvider_mem hc
  rw [hv, hm, rankingForProvider_provider]
  by_cases h : (providerResponses responses p).length = 0
  · simp [h]
  · simp [h, Nat.pos_of_ne_zero h]

/-- C7 witness: with one "OpenAI" response and one "Anthropic" response in
scope, the OpenAI ranking of "Acme" divides by the single OpenAI response
only. -/
theorem provider_visibilityScore_formula_witness :
    (⟨"Acme", 2, 1.5, .neutral, 50, 100, 200, none, false⟩ : CompetitorRanking).visibilityScore =
      if (providerResponses [rAcmeTwice, rBrandOnly] "OpenAI").length = 0 then 0
      else round1 (((⟨"Acme", 2, 1.5, .neutral, 50, 100, 200, none, false⟩ : CompetitorRanking).mentions : ℚ) /
        ((providerResponses [rAcmeTwice, rBrandOnly] "OpenAI").length : ℚ) * 100) := by
  have h := provider_visibilityScore_formula ["OpenAI"] "BrandCo"
    [rAcmeTwice, rBrandOnly] ["Acme"]
    (rankingForProvider "BrandCo" [rAcmeTwice, rBrandOnly] ["Acme"] "OpenAI")
    (by decide) ⟨"Acme", 2, 1.5, .neutral, 50, 100, 200, none, false⟩ (by decide)
  simpa using h

theorem providerResponses_filter (responses : List AIResponse) (ps : List String)
    (p : String) (hp : p ∈ ps) :
    providerResponses (responses.filter (fun r => ps.contains r.provider)) p =
      providerResponses responses p := by
  unfold providerResponses
  rw [List.filter_filter]
  refine List.filter_congr ?_
  intro r _
  by_cases h : r.provider = p
  · subst h
    simp [hp]
  · simp [h]

theorem rankingForProvider_filter (brand : String) (responses : List AIResponse)
    (known : List String) (ps : List String) (p : String) (hp : p ∈ ps) :
    rankingForProvider brand (responses.filter (fun r => ps.contains r.provider)) known p =
      rankingForProvider brand responses known p := by
  unfold rankingForProvider
  rw [providerResponses_filter _ _ _ hp]

theorem globalMentions_provider_blind (brand name : String)
    (responses : List AIResponse) (f : AIResponse → String) :
    globalMentions brand name (responses.map fun r => { r with provider := f r }) =
      globalMentions brand name responses := by
  unfold globalMentions
  rw [List.map_map]
  congr 1

theorem globalPositions_provider_blind (brand name : String)
    (responses : List AIResponse) (f : AIResponse → String) :
    globalPositions brand name (responses.map fun r => { r with provider := f r }) =
      globalPositions brand name responses := by
  unfold globalPositions
  rw [List.map_map]
  congr 1

theorem globalSentiments_provider_blind (brand name : String)
    (responses : List AIResponse) (f : AIResponse → String) :
    globalSentiments brand name (responses.map fun r => { r with provider := f r }) =
      globalSentiments brand name responses := by
  unfold globalSentiments
  rw [List.map_map]
  congr 1

theorem analyzeCompetitors_provider_blind (brand : String)
    (responses : List AIResponse) (known : List String) (f : AIResponse → String) :
    analyzeCompetitors brand (responses.map fun r => { r with provider := f r }) known =
      analyzeCompetitors brand responses known := by
  have hent : ∀ name : String,
      mkGlobalEntry brand (responses.map fun r => { r with provider := f r }) name =
        mkGlobalEntry brand responses name := by
    intro name
    unfold mkGlobalEntry
    rw [globalMentions_provider_blind, globalPositions_provider_blind,
      globalSentiments_provider_blind, List.length_map]
  simp only [analyzeCompetitors]
  rw [List.map_congr_left (fun name _ => hent name)]

/-- C10: a response whose `provider` is not in the effective provider list
contributes nothing to any per-provider output (removing all such responses
leaves both `providerRankings` and `providerComparison` unchanged), while the
global aggregation ignores the `provider` field entirely, so the same response
still counts in the global rankings. -/
theorem unknown_provider_skipped (names : List String) (brand : String)
    (responses : List AIResponse) (known : List String) (f : AIResponse → String) :
    (analyzeCompetitorsByProvider names brand
        (responses.filter (fun r => (providersOf names).contains r.provider)) known =
      analyzeCompetitorsByProvider names brand responses known) ∧
    (analyzeCompetitors brand (responses.map fun r => { r with provider := f r }) known =
      analyzeCompetitors brand responses known) := by
  constructor
  · have h : (providersOf names).map (rankingForProvider brand
        (responses.filter (fun r => (providersOf names).contains r.provider)) known) =
        (providersOf names).map (rankingForProvider brand responses known) :=
      List.map_congr_left (fun p hp => rankingForProvider_filter brand responses known _ p hp)
    simp only [analyzeCompetitorsByProvider]
    rw [h]
  · exact analyzeCompetitors_provider_blind brand responses known f

theorem sovOf_close (m M : ℕ) : |sovOf m M - sovExact m M| ≤ 1 / 20 := by
  unfold sovOf sovExact
  set y : ℚ := (m : ℚ) / (M : ℚ) * 1000 with hy
  have h1 : (m : ℚ) / (M : ℚ) * 100 = y / 10 := by rw [hy]; ring
  have h2 : ((round y : ℤ) : ℚ) / 10 - y / 10 = (((round y : ℤ) : ℚ) - y) / 10 := by ring
  rw [h1, h2, abs_div]
  have h3 : |(10 : ℚ)| = 10 := by norm_num
  have h4 : |((round y : ℤ) : ℚ) - y| ≤ 1 / 2 := by
    rw [abs_sub_comm]; exact abs_sub_round y
  rw [h3]
  linarith

theorem sov_sum_close (l : List ℕ) (M : ℕ) :
    |(l.map fun m => sovOf m M).sum - (l.map fun m => sovExact m M).sum| ≤
      (l.length : ℚ) * (1 / 20) := by
  induction l with
  | nil => simp
  | cons a t ih =>
    simp only [List.map_cons, List.sum_cons, List.length_cons]
    have heq : sovOf a M + (t.map fun m => sovOf m M).sum -
        (sovExact a M + (t.map fun m => sovExact m M).sum) =
        (sovOf a M - sovExact a M) +
          ((t.map fun m => sovOf m M).sum - (t.map fun m => sovExact m M).sum) := by
      ring
    rw [heq]
    have h2 := abs_add (sovOf a M - sovExact a M)
      ((t.map fun m => sovOf m M).sum - (t.map fun m => sovExact m M).sum)
    have h1 := sovOf_close a M
    have hc : ((t.length + 1 : ℕ) : ℚ) = (t.length : ℚ) + 1 := by push_cast; ring
    rw [hc]
    linarith

theorem sum_map_sovExact (l : List ℕ) (M : ℕ) :
    (l.map fun m => sovExact m M).sum =
      (l.map (Nat.cast : ℕ → ℚ)).sum * (100 / (M : ℚ)) := by
  induction l with
  | nil => simp
  | cons a t ih =>
    simp only [List.map_cons, List.sum_cons, ih]
    unfold sovExact
    ring

theorem exact_sov_sum (l : List ℕ) (h : 0 < l.sum) :
    (l.map fun m => sovExact m l.sum).sum = 100 := by
  have hM : ((l.sum : ℕ) : ℚ) ≠ 0 := by
    exact_mod_cast Nat.pos_iff_ne_zero.mp h
  rw [sum_map_sovExact]
  have hcast : (l.map (Nat.cast : ℕ → ℚ)).sum = ((l.sum : ℕ) : ℚ) :=
    (Nat.cast_list_sum l).symm
  rw [hcast]
  calc ((l.sum : ℕ) : ℚ) * (100 / ((l.sum : ℕ) : ℚ))
      = 100 / ((l.sum : ℕ) : ℚ) * ((l.sum : ℕ) : ℚ) := by ring
    _ = 100 := div_mul_cancel₀ 100 hM

theorem sov_closure_pipeline (l : List CompetitorRanking)
    (key : CompetitorRanking → ℚ)
    (h : 0 < ((l.map fun c => c.mentions).sum)) :
    |((sortByDesc key (assignShareOfVoice l)).map fun c => c.shareOfVoice).sum - 100| ≤
      ((sortByDesc key (assignShareOfVoice l)).length : ℚ) * (1 / 20) := by
  have hperm := sortByDesc_perm key (assignShareOfVoice l)
  rw [(hperm.map fun c => c.shareOfVoice).sum_eq, hperm.length_eq]
  have hlen : (assignShareOfVoice l).length = l.length := by
    unfold assignShareOfVoice
    rw [List.length_map]
  have hassign : ((assignShareOfVoice l).map fun c => c.shareOfVoice) =
      (l.map fun c => c.mentions).map
        (fun m => sovOf m ((l.map fun c => c.mentions).sum)) := by
    simp only [assignShareOfVoice, List.map_map]
    refine List.map_congr_left ?_
    intro c _
    simp [h]
  rw [hassign, hlen]
  have hclose := sov_sum_close (l.map fun c => c.mentions)
    ((l.map fun c => c.mentions).sum)
  rw [exact_sov_sum (l.map fun c => c.mentions) h, List.length_map] at hclose
  exact hclose

/-- C3 (amended): in either scope, the unrounded share-of-voice values sum to
exactly 100, so the reported one-decimal values sum to within 0.05 per tracked
company of 100 — but not within the flat ±0.1 claimed, which fails once six or
more companies are tracked (see the counterexample). -/
theorem shareOfVoice_closure (brand : String) (responses : List AIResponse)
    (known names : List String) :
    (0 < ((analyzeCompetitors brand responses known).map fun c => c.mentions).sum →
      |((analyzeCompetitors brand responses known).map fun c => c.shareOfVoice).sum - 100| ≤
        ((analyzeCompetitors brand responses known).length : ℚ) * (1 / 20)) ∧
    (∀ pr ∈ (analyzeCompetitorsByProvider names brand responses known).1,
      0 < ((pr.competitors.map fun c => c.mentions).sum) →
      |((pr.competitors.map fun c => c.shareOfVoice).sum) - 100| ≤
        (pr.competitors.length : ℚ) * (1 / 20)) := by
  constructor
  · intro h
    simp only [analyzeCompetitors] at h ⊢
    have hm : (((sortByDesc (fun c => c.visibilityScore)
        (assignShareOfVoice ((trackedCompanies brand known).map
          (mkGlobalEntry brand responses)))).map fun c => c.mentions)).sum =
        ((((trackedCompanies brand known).map
          (mkGlobalEntry brand responses)).map fun c => c.mentions)).sum := by
      rw [((sortByDesc_perm (fun c => c.visibilityScore)
        (assignShareOfVoice ((trackedCompanies brand known).map
          (mkGlobalEntry brand responses)))).map fun c => c.mentions).sum_eq]
      simp only [assignShareOfVoice, List.map_map]
      rfl
    rw [hm] at h
    exact sov_closure_pipeline _ _ h
  · intro pr hpr h
    obtain ⟨p, _, rfl⟩ := analyzeCompetitorsByProvider_rankings_mem hpr
    simp only [rankingForProvider] at h ⊢
    have hm : (((sortByDesc (fun c => c.visibilityScore)
        (assignShareOfVoice ((trackedCompanies brand known).map
          (mkProviderEntry brand (providerResponses responses p))))).map
            fun c => c.mentions)).sum =
        ((((trackedCompanies brand known).map
          (mkProviderEntry brand (providerResponses responses p))).map
            fun c => c.mentions)).sum := by
      rw [((sortByDesc_perm (fun c => c.visibilityScore)
        (assignShareOfVoice ((trackedCompanies brand known).map
          (mkProviderEntry brand (providerResponses responses p))))).map
            fun c => c.mentions).sum_eq]
      simp only [assignShareOfVoice, List.map_map]
      rfl
    rw [hm] at h
    exact sov_closure_pipeline _ _ h

/-- C3 counterexample: six tracked companies each mentioned once in one
response; every share of voice rounds 1000/6 up to 167, the reported values
sum to 100.2, and |100.2 - 100| exceeds the claimed 0.1 tolerance. -/
theorem shareOfVoice_closure_counterexample :
    (((analyzeCompetitors "A" [rSixCompanies] ["B", "C", "D", "E", "F"]).map
      fun c => c.shareOfVoice).sum = 501 / 5) ∧
    ¬ (|((analyzeCompetitors "A" [rSixCompanies] ["B", "C", "D", "E", "F"]).map
      fun c => c.shareOfVoice).sum - 100| ≤ 1 / 10) := by decide

/-- C3 witness: the amended bound at the same six-company input — six tracked
companies allow a deviation of at most 0.3, and the actual deviation is 0.2. -/
theorem shareOfVoice_closure_witness :
    |((analyzeCompetitors "A" [rSixCompanies] ["B", "C", "D", "E", "F"]).map
      fun c => c.shareOfVoice).sum - 100| ≤
      ((analyzeCompetitors "A" [rSixCompanies] ["B", "C", "D", "E", "F"]).length : ℚ) *
        (1 / 20) :=
  (shareOfVoice_closure "A" [rSixCompanies] ["B", "C", "D", "E", "F"] ["OpenAI"]).1
    (by decide)

theorem globalMentions_perm (brand name : String) {r₁ r₂ : List AIResponse}
    (h : r₁.Perm r₂) :
    globalMentions brand name r₁ = globalMentions brand name r₂ :=
  (h.map (globalMentionContrib brand name)).sum_eq

theorem globalPositions_perm (brand name : String) {r₁ r₂ : List AIResponse}
    (h : r₁.Perm r₂) :
    (globalPositions brand name r₁).Perm (globalPositions brand name r₂) :=
  (h.map (positionContrib brand name)).flatten

theorem globalSentiments_perm (brand name : String) {r₁ r₂ : List AIResponse}
    (h : r₁.Perm r₂) :
    (globalSentiments brand name r₁).Perm (globalSentiments brand name r₂) :=
  (h.map (sentimentContrib brand name)).flatten

theorem avgPositionOf_perm {P₁ P₂ : List ℚ} (h : P₁.Perm P₂) :
    avgPositionOf P₁ = avgPositionOf P₂ := by
  unfold avgPositionOf
  rw [h.length_eq, h.sum_eq]

theorem calculateSentimentScore_perm {s₁ s₂ : List Sentiment} (h : s₁.Perm s₂) :
    calculateSentimentScore s₁ = calculateSentimentScore s₂ := by
  unfold calculateSentimentScore
  rw [h.length_eq, (h.map sentimentValue).sum_eq]

theorem determineSentiment_perm {s₁ s₂ : List Sentiment} (h : s₁.Perm s₂) :
    determineSentiment s₁ = determineSentiment s₂ := by
  unfold determineSentiment
  rw [h.length_eq, h.count_eq, h.count_eq, h.count_eq]

theorem mkGlobalEntry_perm (brand name : String) {r₁ r₂ : List AIResponse}
    (h : r₁.Perm r₂) :
    mkGlobalEntry brand r₁ name = mkGlobalEntry brand r₂ name := by
  unfold mkGlobalEntry
  rw [globalMentions_perm brand name h,
    avgPositionOf_perm (globalPositions_perm brand name h),
    determineSentiment_perm (globalSentiments_perm brand name h),
    calculateSentimentScore_perm (globalSentiments_perm brand name h),
    h.length_eq]

theorem analyzeCompetitors_perm (brand : String) (known : List String)
    {r₁ r₂ : List AIResponse} (h : r₁.Perm r₂) :
    analyzeCompetitors brand r₁ known = analyzeCompetitors brand r₂ known := by
  simp only [analyzeCompetitors]
  rw [List.map_congr_left (fun name _ => mkGlobalEntry_perm brand name h)]

/-- C2: aggregation followed by scoring is shuffle-invariant — any permutation
of the response list yields the identical (sorted) `CompetitorRanking` list
and the identical brand score summary. -/
theorem aggregation_shuffle_invariance (brand brandName : String)
    (known : List String) {r₁ r₂ : List AIResponse} (h : r₁.Perm r₂) :
    analyzeCompetitors brand r₁ known = analyzeCompetitors brand r₂ known ∧
    calculateBrandScores r₁ brandName (analyzeCompetitors brand r₁ known) =
      calculateBrandScores r₂ brandName (analyzeCompetitors brand r₂ known) := by
  have hagg := analyzeCompetitors_perm brand known h
  refine ⟨hagg, ?_⟩
  unfold calculateBrandScores
  rw [hagg, h.length_eq]

/-- C2 witness: two concrete responses, swapped. -/
theorem aggregation_shuffle_invariance_witness :
    analyzeCompetitors "BrandCo" [rAcmeTwice, rBrandRanked] ["Acme"] =
      analyzeCompetitors "BrandCo" [rBrandRanked, rAcmeTwice] ["Acme"] ∧
    calculateBrandScores [rAcmeTwice, rBrandRanked] "BrandCo"
        (analyzeCompetitors "BrandCo" [rAcmeTwice, rBrandRanked] ["Acme"]) =
      calculateBrandScores [rBrandRanked, rAcmeTwice] "BrandCo"
        (analyzeCompetitors "BrandCo" [rBrandRanked, rAcmeTwice] ["Acme"]) :=
  aggregation_shuffle_invariance "BrandCo" "BrandCo" ["Acme"]
    (List.Perm.swap rBrandRanked rAcmeTwice [])

end FireGeo
